import Mathlib

/-!
Verification of the mixed-precision optimizer step of the alpha-zero
repository (src/alpha-zero-nn/src/nn_optimizer.rs).

The optimizer keeps a full-precision master copy and a reduced-precision
compute copy of every trainable parameter, scales the loss before the
backward pass, detects gradient overflow (NaN or infinity) and recovers by
halving the scale and skipping the update.  The neural network itself, the
autodiff engine and the underlying update rule (tch) are external
collaborators; they are modelled as an oracle environment, following the
spec's description of their contracts.

Floating-point values are modelled as exact rationals extended with NaN and
the two infinities.  Multiplication of the scale by 0.5 and 2 is exact in
binary floating point, so the rational model is faithful for the scale
arithmetic the claims are about.
-/

/-- A floating-point value at either precision: NaN, one of the two
infinities, or a finite value modelled as an exact rational. -/
inductive FVal where
  | nan : FVal
  | inf : FVal
  | neginf : FVal
  | fin : ℚ → FVal
deriving DecidableEq, Repr

/-- IEEE addition on modelled values (finite arithmetic is exact). -/
def FVal.add : FVal → FVal → FVal
  | .nan, _ => .nan
  | _, .nan => .nan
  | .inf, .neginf => .nan
  | .neginf, .inf => .nan
  | .inf, _ => .inf
  | _, .inf => .inf
  | .neginf, _ => .neginf
  | _, .neginf => .neginf
  | .fin a, .fin b => .fin (a + b)

/-- Multiplication of a modelled value by a finite scalar. -/
def FVal.scaleBy : FVal → ℚ → FVal
  | .nan, _ => .nan
  | .inf, q => if 0 < q then .inf else if q < 0 then .neginf else .nan
  | .neginf, q => if 0 < q then .neginf else if q < 0 then .inf else .nan
  | .fin a, q => .fin (a * q)

/-- True exactly when the value is NaN or an infinity: the condition tested
by the overflow scan (grad.isinf().any() or grad.isnan().any()). -/
def FVal.isBad : FVal → Bool
  | .fin _ => false
  | _ => true

/-- Modelled from the spec: one ParameterPair of the data model, pairing a
compute-precision tensor with its master-precision counterpart (the two tch
VarStores vs_cloned and vs_master are not part of this repository's sources;
the spec describes them as equal-length, index-aligned parameter lists).
A gradient of none models an undefined (never materialized) tensor. -/
structure Param where
  trainable : Bool
  compute_tensor : FVal
  compute_gradient : Option FVal
  master_tensor : FVal
  master_gradient : Option FVal
deriving DecidableEq, Repr

/-- Configuration for the neural network optimizer (NNOptimizerConfig). -/
structure NNOptimizerConfig where
  lr : ℚ
  gradient_clip_norm : ℚ
  gradient_scale_update_interval : ℕ
deriving DecidableEq, Repr

/-- State of the mixed-precision optimizer (the NNOptimizer struct fields
that the claims are about; nn and the tch Optimizer handle are modelled by
the Env oracle plus the params list). -/
structure NNOptimizer where
  config : NNOptimizerConfig
  gradient_scale : ℚ
  step_count : ℕ
  master_grad_created : Bool
  params : List Param
deriving DecidableEq, Repr

/-- Modelled from the spec: the external collaborators of the optimizer,
whose code (NN::loss, NN::run_backward_on_master, the tch autodiff engine,
tch Optimizer::clip_grad_norm and Optimizer::step, precision casts) is not
under this repository's sources.  Each field is an arbitrary but fixed
function, used as an oracle:
 - lossFn: the compute-precision forward pass over the full batch, from the
   compute weights and the three input sequences, producing the value loss
   and the policy loss;
 - backward: backward differentiation of the scaled loss, giving, per
   parameter index, the populated compute gradient (none when the parameter
   received no gradient);
 - masterBackward: the cold-start forward+backward pass on the master copy
   over one example, giving the master gradient it materializes at each
   parameter index;
 - castDown: the cast of a full-precision value to compute precision;
 - clip: global gradient-norm clipping, giving the new master gradient at a
   parameter index (applied in place where a gradient exists);
 - optStep: the underlying update rule, giving the new master weight at a
   parameter index. -/
structure Env where
  lossFn : List FVal → ℕ → List ℕ → List ℚ → List (List ℚ) → FVal × FVal
  backward : List FVal → FVal → ℕ → Option FVal
  masterBackward : List FVal → ℕ → ℚ → List ℚ → ℕ → FVal
  castDown : FVal → FVal
  clip : ℚ → List Param → ℕ → FVal
  optStep : List Param → ℕ → FVal

/-- Map with the element index, starting from a given index. -/
def idxMapFrom (f : ℕ → α → β) : ℕ → List α → List β
  | _, [] => []
  | i, a :: l => f i a :: idxMapFrom f (i + 1) l

/-- Map with the element index. -/
def idxMap (f : ℕ → α → β) (l : List α) : List β := idxMapFrom f 0 l

/-- Modelled from the spec: the one-time cold-start pass
(NN::run_backward_on_master on a single example), which materializes the
master gradient buffer of every parameter and touches nothing else. -/
def coldStart (env : Env) (g : ℕ) (z : ℚ) (pi : List ℚ) (ps : List Param) :
    List Param :=
  idxMap (fun i p =>
    { p with master_gradient := some (env.masterBackward (ps.map Param.master_tensor) g z pi i) }) ps

/-- Zero out gradients for fp16 weights: param.zero_grad() over every
variable of vs_cloned (a no-op on a parameter whose gradient is undefined). -/
def zeroComputeGradients (ps : List Param) : List Param :=
  ps.map fun p =>
    { p with compute_gradient := p.compute_gradient.map fun _ => FVal.fin 0 }

/-- Compute gradients for fp16 weights: scaled_loss.backward() populates the
compute gradient of every parameter the oracle reports one for, and leaves
the rest as they are. -/
def runBackward (env : Env) (scaledLoss : FVal) (ps : List Param) :
    List Param :=
  idxMap (fun i p =>
    match env.backward (ps.map Param.compute_tensor) scaledLoss i with
    | some gr => { p with compute_gradient := some gr }
    | none => p) ps

/-- The overflow scan over vs_cloned().variables(): a parameter with an
undefined gradient is skipped; detection fires when some defined gradient
holds an infinity or a NaN. -/
def overflowScan (ps : List Param) : Bool :=
  ps.any fun p =>
    match p.compute_gradient with
    | none => false
    | some gr => gr.isBad

/-- One iteration of the gradient upcast loop: for a trainable pair the code
unconditionally runs grad_master.copy_(grad_cloned.detach().to_kind(Float) *
scale_inv); an undefined compute or master gradient tensor makes that
operation panic, modelled as none.  The cast f16 to f32 is exact, so the
copied value is the compute gradient times scale_inv. -/
def upcastParam (scaleInv : ℚ) (p : Param) : Option Param :=
  if p.trainable then
    match p.compute_gradient, p.master_gradient with
    | some gr, some _ =>
        some { p with master_gradient := some (gr.scaleBy scaleInv) }
    | _, _ => none
  else some p

/-- Copy unscaled gradients into master: the zip of the trainable variables
of vs_cloned with those of vs_master, overwriting each master gradient. -/
def upcastGradientsIntoMaster (scaleInv : ℚ) : List Param → Option (List Param)
  | [] => some []
  | p :: ps =>
    match upcastParam scaleInv p, upcastGradientsIntoMaster scaleInv ps with
    | some q, some qs => some (q :: qs)
    | _, _ => none

/-- Optimizer::clip_grad_norm: rescales, in place, the existing master
gradients of the trainable parameters (oracle-valued). -/
def clipGradNorm (env : Env) (norm : ℚ) (ps : List Param) : List Param :=
  idxMap (fun i p =>
    if p.trainable then
      { p with master_gradient :=
          p.master_gradient.map fun _ => env.clip norm ps i }
    else p) ps

/-- Optimizer::step: applies the underlying update rule to the master
weights of the trainable parameters (oracle-valued). -/
def optimizerStep (env : Env) (ps : List Param) : List Param :=
  idxMap (fun i p =>
    if p.trainable then { p with master_tensor := env.optStep ps i } else p) ps

/-- Update fp16 weights: for each trainable pair, cast the master weight to
compute precision and overwrite the compute weight in place. -/
def downcastWeightsIntoCompute (env : Env) (ps : List Param) : List Param :=
  ps.map fun p =>
    if p.trainable then
      { p with compute_tensor := env.castDown p.master_tensor }
    else p

/-- Events instrumenting the stages of one step call, in emission order. -/
inductive Ev where
  | coldStartEv : ℕ → ℚ → List ℚ → Ev
  | zeroGrads : Ev
  | backwardPass : Ev
  | overflowCheck : Ev
  | upcastGrads : Ev
  | clipGrads : Ev
  | optimStep : Ev
  | downcast : Ev
deriving DecidableEq, Repr

/-- True exactly on a cold-start event. -/
def Ev.isColdStart : Ev → Bool
  | .coldStartEv _ _ _ => true
  | _ => false

/-- Result of one step call: the state after the call, the three returned
losses, whether the update was skipped (no commit happened), and the stage
events in order. -/
structure StepResult where
  final : NNOptimizer
  total_loss : FVal
  value_loss : FVal
  policy_loss : FVal
  skipped : Bool
  events : List Ev
deriving DecidableEq, Repr

/-- Creates a new optimizer (NNOptimizer::new): gradient_scale starts at
(2 shl 15) = 65536, step_count at 0, master_grad_created at false.  The
parameter list comes from the externally built network. -/
def NNOptimizer.new (config : NNOptimizerConfig) (params : List Param) :
    NNOptimizer :=
  { config := config
    gradient_scale := ((2 <<< 15 : ℕ) : ℚ)
    step_count := 0
    master_grad_created := false
    params := params }

/-- Performs a single training step (NNOptimizer::step).  The three input
iterators are modelled as lists.  A result of none models a panic: the
unwrap of a missing first element during the cold start, or a tensor
operation on an undefined gradient during the upcast. -/
def NNOptimizer.step (env : Env) (s : NNOptimizer) (batch_size : ℕ)
    (game_iter : List ℕ) (z_iter : List ℚ) (policy_iter : List (List ℚ)) :
    Option StepResult :=
  if batch_size = 0 then
    some { final := s, total_loss := .fin 0, value_loss := .fin 0,
           policy_loss := .fin 0, skipped := true, events := [] }
  else
    let cold : Option (NNOptimizer × List Ev) :=
      if s.master_grad_created then some (s, [])
      else
        match game_iter.head?, z_iter.head?, policy_iter.head? with
        | some g0, some z0, some p0 =>
            some ({ s with params := coldStart env g0 z0 p0 s.params,
                           master_grad_created := true },
                  [Ev.coldStartEv g0 z0 p0])
        | _, _, _ => none
    match cold with
    | none => none
    | some (s1, ev1) =>
      let vp := env.lossFn (s1.params.map Param.compute_tensor) batch_size
        game_iter z_iter policy_iter
      let loss := vp.1.add vp.2
      let scaled_loss := env.castDown (loss.scaleBy s1.gradient_scale)
      let psB := runBackward env scaled_loss (zeroComputeGradients s1.params)
      if overflowScan psB then
        some { final := { s1 with params := psB,
                                  gradient_scale := s1.gradient_scale * (1/2),
                                  step_count := 0 },
               total_loss := loss, value_loss := vp.1, policy_loss := vp.2,
               skipped := true,
               events := ev1 ++ [Ev.zeroGrads, Ev.backwardPass,
                                 Ev.overflowCheck] }
      else
        match upcastGradientsIntoMaster (1 / s1.gradient_scale) psB with
        | none => none
        | some psU =>
          let psO := optimizerStep env
            (clipGradNorm env s1.config.gradient_clip_norm psU)
          let sc1 := s1.step_count + 1
          let scaleNext :=
            if s1.config.gradient_scale_update_interval ≤ sc1 then
              (s1.gradient_scale * 2, 0)
            else (s1.gradient_scale, sc1)
          some { final := { s1 with
                              params := downcastWeightsIntoCompute env psO,
                              gradient_scale := scaleNext.1,
                              step_count := scaleNext.2 },
                 total_loss := loss, value_loss := vp.1, policy_loss := vp.2,
                 skipped := false,
                 events := ev1 ++ [Ev.zeroGrads, Ev.backwardPass,
                                   Ev.overflowCheck, Ev.upcastGrads,
                                   Ev.clipGrads, Ev.optimStep, Ev.downcast] }

/-- One element of a sequence of step calls. -/
structure StepCall where
  batch_size : ℕ
  game_iter : List ℕ
  z_iter : List ℚ
  policy_iter : List (List ℚ)
deriving DecidableEq, Repr

/-- Runs a sequence of step calls, threading the state; none when some call
panics. -/
def stepMany (env : Env) : NNOptimizer → List StepCall → Option NNOptimizer
  | s, [] => some s
  | s, c :: cs =>
    match NNOptimizer.step env s c.batch_size c.game_iter c.z_iter
      c.policy_iter with
    | none => none
    | some r => stepMany env r.final cs

/-- Runs a sequence of step calls all of which must commit an update (none
when some call panics or is skipped). -/
def stepsCommitted (env : Env) :
    NNOptimizer → List StepCall → Option NNOptimizer
  | s, [] => some s
  | s, c :: cs =>
    match NNOptimizer.step env s c.batch_size c.game_iter c.z_iter
      c.policy_iter with
    | none => none
    | some r => if r.skipped then none else stepsCommitted env r.final cs

/-- The compute gradients produced inside one step call on the state s1
reached after the cold start: backward of the scaled loss over the zeroed
parameters. -/
def stepGrads (env : Env) (s1 : NNOptimizer) (b : ℕ) (g : List ℕ)
    (z : List ℚ) (p : List (List ℚ)) : List Param :=
  runBackward env
    (env.castDown
      (((env.lossFn (s1.params.map Param.compute_tensor) b g z p).1.add
          (env.lossFn (s1.params.map Param.compute_tensor) b g z p).2).scaleBy
        s1.gradient_scale))
    (zeroComputeGradients s1.params)

theorem map_idxMapFrom (gf : α → γ) (f : ℕ → α → α)
    (hf : ∀ i a, gf (f i a) = gf a) :
    ∀ (n : ℕ) (l : List α), (idxMapFrom f n l).map gf = l.map gf
  | _, [] => rfl
  | n, a :: l => by
    simp [idxMapFrom, hf, map_idxMapFrom gf f hf (n + 1) l]

theorem map_idxMap (gf : α → γ) (f : ℕ → α → α)
    (hf : ∀ i a, gf (f i a) = gf a) (l : List α) :
    (idxMap f l).map gf = l.map gf :=
  map_idxMapFrom gf f hf 0 l

theorem coldStart_master_tensor (env : Env) (g0 : ℕ) (z0 : ℚ)
    (p0 : List ℚ) (ps : List Param) :
    (coldStart env g0 z0 p0 ps).map Param.master_tensor =
      ps.map Param.master_tensor := by
  unfold coldStart
  refine map_idxMap _ _ ?_ ps
  intro i a
  rfl

theorem coldStart_compute_tensor (env : Env) (g0 : ℕ) (z0 : ℚ)
    (p0 : List ℚ) (ps : List Param) :
    (coldStart env g0 z0 p0 ps).map Param.compute_tensor =
      ps.map Param.compute_tensor := by
  unfold coldStart
  refine map_idxMap _ _ ?_ ps
  intro i a
  rfl

theorem stepGrads_master_tensor (env : Env) (s1 : NNOptimizer) (b : ℕ)
    (g : List ℕ) (z : List ℚ) (p : List (List ℚ)) :
    (stepGrads env s1 b g z p).map Param.master_tensor =
      s1.params.map Param.master_tensor := by
  unfold stepGrads runBackward zeroComputeGradients
  rw [map_idxMap]
  · rw [List.map_map]; rfl
  · intro i a
    cases env.backward _ _ i <;> rfl

theorem stepGrads_master_gradient (env : Env) (s1 : NNOptimizer) (b : ℕ)
    (g : List ℕ) (z : List ℚ) (p : List (List ℚ)) :
    (stepGrads env s1 b g z p).map Param.master_gradient =
      s1.params.map Param.master_gradient := by
  unfold stepGrads runBackward zeroComputeGradients
  rw [map_idxMap]
  · rw [List.map_map]; rfl
  · intro i a
    cases env.backward _ _ i <;> rfl

theorem stepGrads_compute_tensor (env : Env) (s1 : NNOptimizer) (b : ℕ)
    (g : List ℕ) (z : List ℚ) (p : List (List ℚ)) :
    (stepGrads env s1 b g z p).map Param.compute_tensor =
      s1.params.map Param.compute_tensor := by
  unfold stepGrads runBackward zeroComputeGradients
  rw [map_idxMap]
  · rw [List.map_map]; rfl
  · intro i a
    cases env.backward _ _ i <;> rfl

theorem step_spec (env : Env) (s : NNOptimizer) (b : ℕ) (g : List ℕ)
    (z : List ℚ) (p : List (List ℚ)) (r : StepResult) (hb : b ≠ 0)
    (h : NNOptimizer.step env s b g z p = some r) :
    ∃ s1 ev1,
      ((s.master_grad_created = true ∧ s1 = s ∧ ev1 = ([] : List Ev)) ∨
        (s.master_grad_created = false ∧ ∃ g0 z0 p0,
          g.head? = some g0 ∧ z.head? = some z0 ∧ p.head? = some p0 ∧
          s1 = { s with params := coldStart env g0 z0 p0 s.params,
                        master_grad_created := true } ∧
          ev1 = [Ev.coldStartEv g0 z0 p0])) ∧
      r.value_loss =
        (env.lossFn (s1.params.map Param.compute_tensor) b g z p).1 ∧
      r.policy_loss =
        (env.lossFn (s1.params.map Param.compute_tensor) b g z p).2 ∧
      r.total_loss = r.value_loss.add r.policy_loss ∧
      ((r.skipped = true ∧
          overflowScan (stepGrads env s1 b g z p) = true ∧
          r.final = { s1 with params := stepGrads env s1 b g z p,
                              gradient_scale := s1.gradient_scale * (1/2),
                              step_count := 0 } ∧
          r.events =
            ev1 ++ [Ev.zeroGrads, Ev.backwardPass, Ev.overflowCheck]) ∨
        (r.skipped = false ∧
          overflowScan (stepGrads env s1 b g z p) = false ∧
          (∃ psU, upcastGradientsIntoMaster (1 / s1.gradient_scale)
              (stepGrads env s1 b g z p) = some psU ∧
            r.final = { s1 with
              params := downcastWeightsIntoCompute env (optimizerStep env
                (clipGradNorm env s1.config.gradient_clip_norm psU)),
              gradient_scale :=
                if s1.config.gradient_scale_update_interval ≤
                    s1.step_count + 1 then
                  s1.gradient_scale * 2
                else s1.gradient_scale,
              step_count :=
                if s1.config.gradient_scale_update_interval ≤
                    s1.step_count + 1 then 0
                else s1.step_count + 1 }) ∧
          r.events = ev1 ++ [Ev.zeroGrads, Ev.backwardPass, Ev.overflowCheck,
            Ev.upcastGrads, Ev.clipGrads, Ev.optimStep, Ev.downcast])) := by
  unfold NNOptimizer.step at h
  rw [if_neg hb] at h
  cases hm : s.master_grad_created with
  | true =>
    rw [hm] at h
    simp only [if_true] at h
    refine ⟨s, [], Or.inl ⟨rfl, rfl, rfl⟩, ?_⟩
    split at h
    next hov =>
      injection h with h
      subst h
      exact ⟨rfl, rfl, rfl, Or.inl ⟨rfl, hov, rfl, rfl⟩⟩
    next hov =>
      split at h
      next => cases h
      next psU hU =>
        injection h with h
        subst h
        refine ⟨rfl, rfl, rfl, Or.inr ⟨rfl, by simpa using hov,
          ⟨psU, hU, ?_⟩, rfl⟩⟩
        by_cases hi : s.config.gradient_scale_update_interval ≤
            s.step_count + 1
        · simp only [if_pos hi]
        · simp only [if_neg hi]
  | false =>
    rw [hm] at h
    simp only [Bool.false_eq_true, if_false] at h
    cases hg : g.head? with
    | none => rw [hg] at h; cases z.head? <;> cases p.head? <;> cases h
    | some g0 =>
      cases hz : z.head? with
      | none => rw [hg, hz] at h; cases p.head? <;> cases h
      | some z0 =>
        cases hp : p.head? with
        | none => rw [hg, hz, hp] at h; cases h
        | some p0 =>
          simp only [hg, hz, hp] at h
          refine ⟨{ s with params := coldStart env g0 z0 p0 s.params,
                           master_grad_created := true },
                  [Ev.coldStartEv g0 z0 p0],
                  Or.inr ⟨rfl, g0, z0, p0, rfl, rfl, rfl, rfl, rfl⟩, ?_⟩
          split at h
          next hov =>
            injection h with h
            subst h
            exact ⟨rfl, rfl, rfl, Or.inl ⟨rfl, hov, rfl, rfl⟩⟩
          next hov =>
            split at h
            next => cases h
            next psU hU =>
              injection h with h
              subst h
              refine ⟨rfl, rfl, rfl, Or.inr ⟨rfl, by simpa using hov,
                ⟨psU, hU, ?_⟩, rfl⟩⟩
              by_cases hi : s.config.gradient_scale_update_interval ≤
                  s.step_count + 1
              · simp only [if_pos hi]
              · simp only [if_neg hi]

theorem step_frame (env : Env) (s : NNOptimizer) (b : ℕ) (g : List ℕ)
    (z : List ℚ) (p : List (List ℚ)) (r : StepResult)
    (h : NNOptimizer.step env s b g z p = some r) :
    (r.final.gradient_scale = s.gradient_scale ∨
      r.final.gradient_scale = s.gradient_scale * (1/2) ∨
      r.final.gradient_scale = s.gradient_scale * 2) ∧
    r.final.config = s.config ∧
    (s.master_grad_created = true → r.final.master_grad_created = true) := by
  by_cases hb : b = 0
  · subst hb
    unfold NNOptimizer.step at h
    rw [if_pos rfl] at h
    injection h with h
    subst h
    exact ⟨Or.inl rfl, rfl, fun hf => hf⟩
  · obtain ⟨s1, ev1, hcold, _, _, _, hbr⟩ := step_spec env s b g z p r hb h
    have hs1 : s1.gradient_scale = s.gradient_scale ∧ s1.config = s.config ∧
        (s.master_grad_created = true → s1.master_grad_created = true) := by
      rcases hcold with ⟨_, rfl, _⟩ | ⟨_, g0, z0, p0, _, _, _, rfl, _⟩
      · exact ⟨rfl, rfl, fun hf => hf⟩
      · exact ⟨rfl, rfl, fun _ => rfl⟩
    rcases hbr with ⟨_, _, hfin, _⟩ | ⟨_, _, ⟨psU, hU, hfin⟩, _⟩
    · rw [hfin]
      exact ⟨Or.inr (Or.inl (by rw [hs1.1])), hs1.2.1, hs1.2.2⟩
    · rw [hfin]
      refine ⟨?_, hs1.2.1, hs1.2.2⟩
      by_cases hi : s1.config.gradient_scale_update_interval ≤
          s1.step_count + 1
      · right; right
        simp only [if_pos hi]
        rw [hs1.1]
      · left
        simp only [if_neg hi]
        exact hs1.1

theorem step_committed_spec (env : Env) (s : NNOptimizer) (b : ℕ)
    (g : List ℕ) (z : List ℚ) (p : List (List ℚ)) (r : StepResult)
    (h : NNOptimizer.step env s b g z p = some r) (hsk : r.skipped = false) :
    (s.config.gradient_scale_update_interval ≤ s.step_count + 1 ∧
      r.final.gradient_scale = s.gradient_scale * 2 ∧
      r.final.step_count = 0) ∨
    (¬ s.config.gradient_scale_update_interval ≤ s.step_count + 1 ∧
      r.final.gradient_scale = s.gradient_scale ∧
      r.final.step_count = s.step_count + 1) := by
  by_cases hb : b = 0
  · subst hb
    unfold NNOptimizer.step at h
    rw [if_pos rfl] at h
    injection h with h
    subst h
    cases hsk
  · obtain ⟨s1, ev1, hcold, _, _, _, hbr⟩ := step_spec env s b g z p r hb h
    have hs1 : s1.gradient_scale = s.gradient_scale ∧ s1.config = s.config ∧
        s1.step_count = s.step_count := by
      rcases hcold with ⟨_, rfl, _⟩ | ⟨_, g0, z0, p0, _, _, _, rfl, _⟩
      · exact ⟨rfl, rfl, rfl⟩
      · exact ⟨rfl, rfl, rfl⟩
    rcases hbr with ⟨hsk2, _, _, _⟩ | ⟨_, _, ⟨psU, hU, hfin⟩, _⟩
    · rw [hsk2] at hsk; cases hsk
    · rw [hfin]
      by_cases hi : s1.config.gradient_scale_update_interval ≤
          s1.step_count + 1
      · left
        rw [hs1.2.1, hs1.2.2] at hi
        refine ⟨hi, ?_, ?_⟩
        · simp only [hs1.2.1, hs1.2.2, if_pos hi]
          rw [hs1.1]
        · simp only [hs1.2.1, hs1.2.2, if_pos hi]
      · right
        rw [hs1.2.1, hs1.2.2] at hi
        refine ⟨hi, ?_, ?_⟩
        · simp only [hs1.2.1, hs1.2.2, if_neg hi]
          exact hs1.1
        · simp only [hs1.2.1, hs1.2.2, if_neg hi]

theorem step_count_preserve (env : Env) (s : NNOptimizer) (b : ℕ)
    (g : List ℕ) (z : List ℚ) (p : List (List ℚ)) (r : StepResult)
    (h : NNOptimizer.step env s b g z p = some r)
    (hI : 1 ≤ s.config.gradient_scale_update_interval)
    (hc : s.step_count < s.config.gradient_scale_update_interval) :
    r.final.step_count < r.final.config.gradient_scale_update_interval := by
  have hconf := (step_frame env s b g z p r h).2.1
  by_cases hb : b = 0
  · subst hb
    unfold NNOptimizer.step at h
    rw [if_pos rfl] at h
    injection h with h
    subst h
    exact hc
  · obtain ⟨s1, ev1, hcold, _, _, _, hbr⟩ := step_spec env s b g z p r hb h
    have hs1 : s1.config = s.config ∧ s1.step_count = s.step_count := by
      rcases hcold with ⟨_, rfl, _⟩ | ⟨_, g0, z0, p0, _, _, _, rfl, _⟩
      · exact ⟨rfl, rfl⟩
      · exact ⟨rfl, rfl⟩
    rw [hconf]
    rcases hbr with ⟨_, _, hfin, _⟩ | ⟨_, _, ⟨psU, hU, hfin⟩, _⟩
    · rw [hfin]
      show (0 : ℕ) < s.config.gradient_scale_update_interval
      omega
    · rw [hfin]
      by_cases hi : s1.config.gradient_scale_update_interval ≤
          s1.step_count + 1
      · show (if s1.config.gradient_scale_update_interval ≤
            s1.step_count + 1 then 0 else s1.step_count + 1) <
            s.config.gradient_scale_update_interval
        rw [if_pos hi]
        omega
      · show (if s1.config.gradient_scale_update_interval ≤
            s1.step_count + 1 then 0 else s1.step_count + 1) <
            s.config.gradient_scale_update_interval
        rw [if_neg hi, hs1.2]
        rw [hs1.1, hs1.2] at hi
        omega

theorem stepMany_scale (env : Env) :
    ∀ (calls : List StepCall) (s s₂ : NNOptimizer),
      stepMany env s calls = some s₂ →
      ∃ k : ℤ, s₂.gradient_scale = s.gradient_scale * 2 ^ k
  | [], s, s₂, h => by
    injection h with h
    subst h
    exact ⟨0, by simp⟩
  | c :: cs, s, s₂, h => by
    unfold stepMany at h
    cases hstep : NNOptimizer.step env s c.batch_size c.game_iter c.z_iter
        c.policy_iter with
    | none => rw [hstep] at h; cases h
    | some r =>
      rw [hstep] at h
      obtain ⟨k, hk⟩ := stepMany_scale env cs r.final s₂ h
      obtain ⟨hsc, -, -⟩ := step_frame env s _ _ _ _ r hstep
      rcases hsc with h1 | h1 | h1
      · exact ⟨k, by rw [hk, h1]⟩
      · refine ⟨k - 1, ?_⟩
        rw [hk, h1, zpow_sub₀ (two_ne_zero : (2 : ℚ) ≠ 0), zpow_one]
        ring
      · refine ⟨k + 1, ?_⟩
        rw [hk, h1, zpow_add₀ (two_ne_zero : (2 : ℚ) ≠ 0), zpow_one]
        ring

theorem stepMany_frame (env : Env) :
    ∀ (calls : List StepCall) (s s₂ : NNOptimizer),
      stepMany env s calls = some s₂ →
      s₂.config = s.config ∧
      (s.master_grad_created = true → s₂.master_grad_created = true)
  | [], s, s₂, h => by
    injection h with h
    subst h
    exact ⟨rfl, fun hf => hf⟩
  | c :: cs, s, s₂, h => by
    unfold stepMany at h
    cases hstep : NNOptimizer.step env s c.batch_size c.game_iter c.z_iter
        c.policy_iter with
    | none => rw [hstep] at h; cases h
    | some r =>
      rw [hstep] at h
      obtain ⟨hc, hf⟩ := stepMany_frame env cs r.final s₂ h
      obtain ⟨-, hc2, hf2⟩ := step_frame env s _ _ _ _ r hstep
      exact ⟨hc.trans hc2, fun hm => hf (hf2 hm)⟩

theorem stepMany_count (env : Env) :
    ∀ (calls : List StepCall) (s s₂ : NNOptimizer),
      stepMany env s calls = some s₂ →
      1 ≤ s.config.gradient_scale_update_interval →
      s.step_count < s.config.gradient_scale_update_interval →
      s₂.step_count < s₂.config.gradient_scale_update_interval
  | [], s, s₂, h, _, hc => by
    injection h with h
    subst h
    exact hc
  | c :: cs, s, s₂, h, hI, hc => by
    unfold stepMany at h
    cases hstep : NNOptimizer.step env s c.batch_size c.game_iter c.z_iter
        c.policy_iter with
    | none => rw [hstep] at h; cases h
    | some r =>
      rw [hstep] at h
      have hconf := (step_frame env s _ _ _ _ r hstep).2.1
      exact stepMany_count env cs r.final s₂ h (by rw [hconf]; exact hI)
        (step_count_preserve env s _ _ _ _ r hstep hI hc)

theorem stepsCommitted_below (env : Env) :
    ∀ (calls : List StepCall) (s s₂ : NNOptimizer),
      stepsCommitted env s calls = some s₂ →
      s.step_count + calls.length < s.config.gradient_scale_update_interval →
      s₂.gradient_scale = s.gradient_scale ∧
      s₂.step_count = s.step_count + calls.length ∧ s₂.config = s.config
  | [], s, s₂, h, _ => by
    injection h with h
    subst h
    exact ⟨rfl, rfl, rfl⟩
  | c :: cs, s, s₂, h, hlt => by
    unfold stepsCommitted at h
    cases hstep : NNOptimizer.step env s c.batch_size c.game_iter c.z_iter
        c.policy_iter with
    | none => rw [hstep] at h; cases h
    | some r =>
      rw [hstep] at h
      dsimp only at h
      cases hsk : r.skipped with
      | true => rw [hsk] at h; simp at h
      | false =>
        rw [hsk] at h
        rw [if_neg (by simp)] at h
        have hconf := (step_frame env s _ _ _ _ r hstep).2.1
        rcases step_committed_spec env s _ _ _ _ r hstep hsk with
          ⟨hi, -, -⟩ | ⟨hi, hsc, hcount⟩
        · simp only [List.length_cons] at hlt
          omega
        · have hrec := stepsCommitted_below env cs r.final s₂ h (by
            rw [hcount, hconf]
            simp only [List.length_cons] at hlt
            omega)
          refine ⟨hrec.1.trans hsc, ?_, hrec.2.2.trans hconf⟩
          rw [hrec.2.1, hcount]
          simp only [List.length_cons]
          omega

theorem stepsCommitted_reach (env : Env) :
    ∀ (calls : List StepCall) (s s₂ : NNOptimizer),
      stepsCommitted env s calls = some s₂ →
      calls ≠ [] →
      s.step_count + calls.length = s.config.gradient_scale_update_interval →
      s₂.gradient_scale = s.gradient_scale * 2 ∧ s₂.step_count = 0
  | [], _, _, _, hne, _ => absurd rfl hne
  | c :: cs, s, s₂, h, _, hlen => by
    unfold stepsCommitted at h
    cases hstep : NNOptimizer.step env s c.batch_size c.game_iter c.z_iter
        c.policy_iter with
    | none => rw [hstep] at h; cases h
    | some r =>
      rw [hstep] at h
      dsimp only at h
      cases hsk : r.skipped with
      | true => rw [hsk] at h; simp at h
      | false =>
        rw [hsk] at h
        rw [if_neg (by simp)] at h
        have hconf := (step_frame env s _ _ _ _ r hstep).2.1
        rcases step_committed_spec env s _ _ _ _ r hstep hsk with
          ⟨hi, hsc, hcount⟩ | ⟨hi, hsc, hcount⟩
        · cases cs with
          | nil =>
            injection h with h
            subst h
            exact ⟨hsc, hcount⟩
          | cons c2 cs2 =>
            simp only [List.length_cons] at hlen
            omega
        · cases cs with
          | nil =>
            simp only [List.length_cons, List.length_nil] at hlen
            omega
          | cons c2 cs2 =>
            have hrec := stepsCommitted_reach env (c2 :: cs2) r.final s₂ h
              (by simp) (by
                rw [hcount, hconf]
                simp only [List.length_cons] at hlen ⊢
                omega)
            exact ⟨hrec.1.trans (by rw [hsc]), hrec.2⟩

theorem upcast_fault (scaleInv : ℚ) :
    ∀ ps : List Param,
      (∃ q ∈ ps, q.trainable = true ∧
        (q.compute_gradient = none ∨ q.master_gradient = none)) →
      upcastGradientsIntoMaster scaleInv ps = none
  | [], h => by rcases h with ⟨q, hq, _⟩; cases hq
  | p :: ps, h => by
    rcases h with ⟨q, hq, hqt, hqg⟩
    rcases List.mem_cons.mp hq with rfl | hq2
    · have hqnone : upcastParam scaleInv q = none := by
        unfold upcastParam
        rw [hqt]
        simp only [if_true]
        rcases hqg with h1 | h1
        · rw [h1]
        · rw [h1]
          cases q.compute_gradient <;> rfl
      unfold upcastGradientsIntoMaster
      rw [hqnone]
    · unfold upcastGradientsIntoMaster
      rw [upcast_fault scaleInv ps ⟨q, hq2, hqt, hqg⟩]
      cases upcastParam scaleInv p <;> rfl

theorem upcast_success (scaleInv : ℚ) :
    ∀ ps : List Param,
      (∀ q ∈ ps, q.trainable = true →
        q.compute_gradient ≠ none ∧ q.master_gradient ≠ none) →
      upcastGradientsIntoMaster scaleInv ps =
        some (ps.map fun q =>
          if q.trainable then
            { q with master_gradient :=
                q.compute_gradient.map fun gv => gv.scaleBy scaleInv }
          else q)
  | [], _ => rfl
  | p :: ps, h => by
    have hrec := upcast_success scaleInv ps
      (fun q hq => h q (List.mem_cons_of_mem p hq))
    have hp : upcastParam scaleInv p =
        some (if p.trainable then
          { p with master_gradient :=
              p.compute_gradient.map fun gv => gv.scaleBy scaleInv }
        else p) := by
      unfold upcastParam
      cases hpt : p.trainable with
      | false => simp [hpt]
      | true =>
        obtain ⟨h1, h2⟩ := h p (List.mem_cons_self p ps) hpt
        cases hc : p.compute_gradient with
        | none => exact absurd hc h1
        | some gv =>
          cases hm : p.master_gradient with
          | none => exact absurd hm h2
          | some mv => simp [hc, hm]
    unfold upcastGradientsIntoMaster
    rw [hrec, hp]
    rfl

theorem map_map_pointwise (gf : α → γ) (f : α → α)
    (hf : ∀ a, gf (f a) = gf a) :
    ∀ l : List α, (l.map f).map gf = l.map gf
  | [] => rfl
  | a :: l => by
    simp only [List.map_cons, hf, map_map_pointwise gf f hf l]

theorem upcast_compute_gradient (scaleInv : ℚ) :
    ∀ (ps qs : List Param),
      upcastGradientsIntoMaster scaleInv ps = some qs →
      qs.map Param.compute_gradient = ps.map Param.compute_gradient
  | [], qs, h => by injection h with h; subst h; rfl
  | p :: ps, qs, h => by
    unfold upcastGradientsIntoMaster at h
    cases hp : upcastParam scaleInv p with
    | none => rw [hp] at h; cases h
    | some q =>
      rw [hp] at h
      cases hps : upcastGradientsIntoMaster scaleInv ps with
      | none => rw [hps] at h; cases h
      | some qs2 =>
        rw [hps] at h
        injection h with h
        subst h
        have hq : q.compute_gradient = p.compute_gradient := by
          unfold upcastParam at hp
          cases hpt : p.trainable with
          | false =>
            rw [hpt] at hp
            simp only [Bool.false_eq_true, if_false] at hp
            injection hp with hp
            subst hp
            rfl
          | true =>
            rw [hpt] at hp
            simp only [if_true] at hp
            cases hc : p.compute_gradient with
            | none => rw [hc] at hp; cases hp
            | some gv =>
              rw [hc] at hp
              cases hm : p.master_gradient with
              | none => rw [hm] at hp; cases hp
              | some mv =>
                rw [hm] at hp
                injection hp with hp
                subst hp
                exact hc.symm ▸ rfl
        simp only [List.map_cons, hq,
          upcast_compute_gradient scaleInv ps qs2 hps]

theorem clip_compute_gradient (env : Env) (norm : ℚ) (ps : List Param) :
    (clipGradNorm env norm ps).map Param.compute_gradient =
      ps.map Param.compute_gradient := by
  unfold clipGradNorm
  refine map_idxMap _ _ ?_ ps
  intro i a
  cases ha : a.trainable <;> simp [ha]

theorem optStep_compute_gradient (env : Env) (ps : List Param) :
    (optimizerStep env ps).map Param.compute_gradient =
      ps.map Param.compute_gradient := by
  unfold optimizerStep
  refine map_idxMap _ _ ?_ ps
  intro i a
  cases ha : a.trainable <;> simp [ha]

theorem downcast_compute_gradient (env : Env) (ps : List Param) :
    (downcastWeightsIntoCompute env ps).map Param.compute_gradient =
      ps.map Param.compute_gradient := by
  unfold downcastWeightsIntoCompute
  refine map_map_pointwise _ _ ?_ ps
  intro a
  cases ha : a.trainable <;> simp [ha]

theorem overflowScan_congr :
    ∀ (ps qs : List Param),
      ps.map Param.compute_gradient = qs.map Param.compute_gradient →
      overflowScan ps = overflowScan qs
  | [], [], _ => rfl
  | [], _ :: _, h => by cases h
  | _ :: _, [], h => by cases h
  | p :: ps, q :: qs, h => by
    simp only [List.map_cons, List.cons.injEq] at h
    unfold overflowScan
    simp only [List.any_cons]
    rw [h.1]
    have := overflowScan_congr ps qs h.2
    unfold overflowScan at this
    rw [this]

theorem downcast_spec (env : Env) (qs : List Param) :
    ∀ q ∈ downcastWeightsIntoCompute env qs, q.trainable = true →
      q.compute_tensor = env.castDown q.master_tensor := by
  intro q hq ht
  unfold downcastWeightsIntoCompute at hq
  obtain ⟨q0, hq0, rfl⟩ := List.mem_map.mp hq
  cases h0 : q0.trainable with
  | false => simp [h0] at ht
  | true => rfl

/-- C2: for every sequence of step calls on one optimizer instance, the
loss scale after the sequence equals the initial scale times 2 to an
integer power; each individual step multiplies the scale by exactly 1/2
(overflow), by exactly 2 (interval-triggered doubling), or leaves it
unchanged, and no other modification of the scale occurs. -/
theorem c2_scale_power_of_two (env : Env) :
    (∀ (s : NNOptimizer) (b : ℕ) (g : List ℕ) (z : List ℚ)
        (p : List (List ℚ)) (r : StepResult),
      NNOptimizer.step env s b g z p = some r →
      r.final.gradient_scale = s.gradient_scale ∨
      r.final.gradient_scale = s.gradient_scale * (1/2) ∨
      r.final.gradient_scale = s.gradient_scale * 2) ∧
    (∀ (calls : List StepCall) (s s₂ : NNOptimizer),
      stepMany env s calls = some s₂ →
      ∃ k : ℤ, s₂.gradient_scale = s.gradient_scale * 2 ^ k) :=
  ⟨fun s b g z p r h => (step_frame env s b g z p r h).1,
   fun calls s s₂ h => stepMany_scale env calls s s₂ h⟩

/-- C3: with update interval at least 1 and starting from a zero success
counter, after exactly update-interval consecutive committed steps the
scale doubles and the counter resets to 0; each committed step increments
the counter (resetting it with a doubling when the threshold is reached);
and after every completed step call, on any state reachable from a fresh
optimizer, the counter is strictly below the update interval. -/
theorem c3_interval_doubling (env : Env) :
    (∀ (s : NNOptimizer) (calls : List StepCall) (s₂ : NNOptimizer),
      1 ≤ s.config.gradient_scale_update_interval →
      s.step_count = 0 →
      calls.length = s.config.gradient_scale_update_interval →
      stepsCommitted env s calls = some s₂ →
      s₂.gradient_scale = s.gradient_scale * 2 ∧ s₂.step_count = 0) ∧
    (∀ (s : NNOptimizer) (b : ℕ) (g : List ℕ) (z : List ℚ)
        (p : List (List ℚ)) (r : StepResult),
      NNOptimizer.step env s b g z p = some r → r.skipped = false →
      (¬ s.config.gradient_scale_update_interval ≤ s.step_count + 1 ∧
        r.final.step_count = s.step_count + 1 ∧
        r.final.gradient_scale = s.gradient_scale) ∨
      (s.config.gradient_scale_update_interval ≤ s.step_count + 1 ∧
        r.final.step_count = 0 ∧
        r.final.gradient_scale = s.gradient_scale * 2)) ∧
    (∀ (cfg : NNOptimizerConfig) (ps : List Param) (calls : List StepCall)
        (s₂ : NNOptimizer),
      1 ≤ cfg.gradient_scale_update_interval →
      stepMany env (NNOptimizer.new cfg ps) calls = some s₂ →
      s₂.step_count < cfg.gradient_scale_update_interval) := by
  refine ⟨?_, ?_, ?_⟩
  · intro s calls s₂ hI hzero hlen h
    exact stepsCommitted_reach env calls s s₂ h
      (by
        intro hnil
        subst hnil
        simp only [List.length_nil] at hlen
        omega)
      (by omega)
  · intro s b g z p r h hsk
    rcases step_committed_spec env s b g z p r h hsk with
      ⟨hi, hsc, hcount⟩ | ⟨hi, hsc, hcount⟩
    · exact Or.inr ⟨hi, hcount, hsc⟩
    · exact Or.inl ⟨hi, hcount, hsc⟩
  · intro cfg ps calls s₂ hI h
    have hlt := stepMany_count env calls (NNOptimizer.new cfg ps) s₂ h hI
      (by
        show (0 : ℕ) < cfg.gradient_scale_update_interval
        omega)
    have hconf := (stepMany_frame env calls (NNOptimizer.new cfg ps) s₂ h).1
    rw [hconf] at hlt
    exact hlt

/-- C5: after every committed (non-skipped) step, every compute-precision
weight equals the corresponding master-precision weight cast to compute
precision, pairing the two weight sequences index for index. -/
theorem c5_downcast_invariant (env : Env) (s : NNOptimizer) (b : ℕ)
    (g : List ℕ) (z : List ℚ) (p : List (List ℚ)) (r : StepResult)
    (h : NNOptimizer.step env s b g z p = some r) (hsk : r.skipped = false) :
    ∀ q ∈ r.final.params, q.trainable = true →
      q.compute_tensor = env.castDown q.master_tensor := by
  by_cases hb : b = 0
  · subst hb
    unfold NNOptimizer.step at h
    rw [if_pos rfl] at h
    injection h with h
    subst h
    cases hsk
  · obtain ⟨s1, ev1, hcold, _, _, _, hbr⟩ := step_spec env s b g z p r hb h
    rcases hbr with ⟨hsk2, _, _, _⟩ | ⟨_, _, ⟨psU, hU, hfin⟩, _⟩
    · rw [hsk2] at hsk; cases hsk
    · rw [hfin]
      exact downcast_spec env _

/-- C6: for every call to step with nonzero batch size, the returned triple
is the total loss, the value loss and the policy loss of the unscaled
forward pass over the full batch on the pre-call compute weights, with the
total equal to the sum of the other two, independently of whether the
update was committed or skipped. -/
theorem c6_losses (env : Env) (s : NNOptimizer) (b : ℕ) (g : List ℕ)
    (z : List ℚ) (p : List (List ℚ)) (r : StepResult) (hb : b ≠ 0)
    (h : NNOptimizer.step env s b g z p = some r) :
    r.total_loss = r.value_loss.add r.policy_loss ∧
    r.value_loss =
      (env.lossFn (s.params.map Param.compute_tensor) b g z p).1 ∧
    r.policy_loss =
      (env.lossFn (s.params.map Param.compute_tensor) b g z p).2 := by
  obtain ⟨s1, ev1, hcold, hv, hp2, ht, _⟩ := step_spec env s b g z p r hb h
  have hct : s1.params.map Param.compute_tensor =
      s.params.map Param.compute_tensor := by
    rcases hcold with ⟨_, rfl, _⟩ | ⟨_, g0, z0, p0, _, _, _, rfl, _⟩
    · rfl
    · exact coldStart_compute_tensor env g0 z0 p0 s.params
  exact ⟨ht, by rw [hv, hct], by rw [hp2, hct]⟩

/-- C9: calling step with batch size zero returns exactly the three zero
losses and mutates nothing: the state after the call is the state before,
including the scale, the counter, the cold-start flag and every parameter. -/
theorem c9_zero_batch (env : Env) (s : NNOptimizer) (g : List ℕ)
    (z : List ℚ) (p : List (List ℚ)) :
    NNOptimizer.step env s 0 g z p =
      some { final := s, total_loss := .fin 0, value_loss := .fin 0,
             policy_loss := .fin 0, skipped := true, events := [] } := rfl

/-- C10: a step call with nonzero batch size on an instance whose cold-start
flag is still false panics (modelled as none) when any of the three input
sequences is empty, because the cold start unwraps their first elements. -/
theorem c10_empty_input_panic (env : Env) (s : NNOptimizer) (b : ℕ)
    (g : List ℕ) (z : List ℚ) (p : List (List ℚ))
    (hflag : s.master_grad_created = false) (hb : b ≠ 0)
    (he : g = [] ∨ z = [] ∨ p = []) :
    NNOptimizer.step env s b g z p = none := by
  unfold NNOptimizer.step
  rw [if_neg hb, hflag]
  simp only [Bool.false_eq_true, if_false]
  rcases he with rfl | rfl | rfl
  · cases z.head? <;> cases p.head? <;> rfl
  · cases g.head? <;> cases p.head? <;> rfl
  · cases g.head? <;> cases z.head? <;> rfl

/-- C7: within every step call with nonzero batch size the stages run in
the strict order zeroing, backward pass, overflow scan, then, exactly when
the step was not skipped, upcast, clipping, optimizer update and downcast;
the commit stages never execute in a call in which overflow is detected,
and the skip outcome coincides with the overflow scan of the compute
gradients the call produced. -/
theorem c7_stage_order (env : Env) (s : NNOptimizer) (b : ℕ) (g : List ℕ)
    (z : List ℚ) (p : List (List ℚ)) (r : StepResult) (hb : b ≠ 0)
    (h : NNOptimizer.step env s b g z p = some r) :
    (∃ pre, (pre = ([] : List Ev) ∨
        ∃ g0 z0 p0, pre = [Ev.coldStartEv g0 z0 p0]) ∧
      r.events = pre ++ [Ev.zeroGrads, Ev.backwardPass, Ev.overflowCheck] ++
        (if r.skipped then []
         else [Ev.upcastGrads, Ev.clipGrads, Ev.optimStep, Ev.downcast])) ∧
    r.skipped = overflowScan r.final.params := by
  obtain ⟨s1, ev1, hcold, _, _, _, hbr⟩ := step_spec env s b g z p r hb h
  have hpre : ev1 = [] ∨ ∃ g0 z0 p0, ev1 = [Ev.coldStartEv g0 z0 p0] := by
    rcases hcold with ⟨_, _, rfl⟩ | ⟨_, g0, z0, p0, _, _, _, _, rfl⟩
    · exact Or.inl rfl
    · exact Or.inr ⟨g0, z0, p0, rfl⟩
  rcases hbr with ⟨hsk, hov, hfin, hev⟩ | ⟨hsk, hov, ⟨psU, hU, hfin⟩, hev⟩
  · refine ⟨⟨ev1, hpre, ?_⟩, ?_⟩
    · rw [hev, hsk]
      simp
    · rw [hsk, hfin]
      exact hov.symm
  · refine ⟨⟨ev1, hpre, ?_⟩, ?_⟩
    · rw [hev, hsk]
      simp
    · rw [hsk, hfin]
      show false = overflowScan (downcastWeightsIntoCompute env
        (optimizerStep env (clipGradNorm env s1.config.gradient_clip_norm
          psU)))
      have h1 : (downcastWeightsIntoCompute env (optimizerStep env
          (clipGradNorm env s1.config.gradient_clip_norm psU))).map
            Param.compute_gradient =
          (stepGrads env s1 b g z p).map Param.compute_gradient := by
        rw [downcast_compute_gradient, optStep_compute_gradient,
          clip_compute_gradient]
        exact upcast_compute_gradient _ _ _ hU
      rw [overflowScan_congr _ _ h1, hov]

/-- C1 (amended): after a step call with nonzero batch size in which
overflow is detected, the loss scale is half its value before the call, the
consecutive-success counter is 0, every master-precision weight is
unchanged, and, whenever the cold-start flag was already set before the
call, every master gradient buffer is also unchanged (on a first real step,
the one-time cold-start pass has already materialized the master gradient
buffers before the overflow is detected); in particular, from the default
initial scale 65536 the scale becomes 32768. -/
theorem c1_overflow_step (env : Env) (s : NNOptimizer) (b : ℕ) (g : List ℕ)
    (z : List ℚ) (p : List (List ℚ)) (r : StepResult) (hb : b ≠ 0)
    (h : NNOptimizer.step env s b g z p = some r) (hsk : r.skipped = true) :
    r.final.gradient_scale = s.gradient_scale * (1/2) ∧
    r.final.step_count = 0 ∧
    r.final.params.map Param.master_tensor =
      s.params.map Param.master_tensor ∧
    (s.master_grad_created = true →
      r.final.params.map Param.master_gradient =
        s.params.map Param.master_gradient) ∧
    (s.gradient_scale = 65536 → r.final.gradient_scale = 32768) := by
  obtain ⟨s1, ev1, hcold, _, _, _, hbr⟩ := step_spec env s b g z p r hb h
  rcases hbr with ⟨_, hov, hfin, _⟩ | ⟨hsk2, _, _, _⟩
  swap
  · rw [hsk2] at hsk; cases hsk
  · have hsc : s1.gradient_scale = s.gradient_scale := by
      rcases hcold with ⟨_, rfl, _⟩ | ⟨_, _, _, _, _, _, _, rfl, _⟩ <;> rfl
    have hmt : s1.params.map Param.master_tensor =
        s.params.map Param.master_tensor := by
      rcases hcold with ⟨_, rfl, _⟩ | ⟨_, g0, z0, p0, _, _, _, rfl, _⟩
      · rfl
      · exact coldStart_master_tensor env g0 z0 p0 s.params
    refine ⟨?_, ?_, ?_, ?_, ?_⟩
    · rw [hfin]
      show s1.gradient_scale * (1/2) = s.gradient_scale * (1/2)
      rw [hsc]
    · rw [hfin]
    · rw [hfin]
      show (stepGrads env s1 b g z p).map Param.master_tensor = _
      rw [stepGrads_master_tensor]
      exact hmt
    · intro hflag
      rcases hcold with ⟨_, hs1, _⟩ | ⟨hflag2, _⟩
      · rw [hfin, hs1]
        show (stepGrads env s b g z p).map Param.master_gradient = _
        rw [stepGrads_master_gradient]
      · rw [hflag] at hflag2; cases hflag2
    · intro h65
      rw [hfin]
      show s1.gradient_scale * (1/2) = 32768
      rw [hsc, h65]
      norm_num

theorem step_no_coldstart (env : Env) (s : NNOptimizer) (b : ℕ)
    (g : List ℕ) (z : List ℚ) (p : List (List ℚ)) (r : StepResult)
    (hflag : s.master_grad_created = true)
    (h : NNOptimizer.step env s b g z p = some r) :
    ∀ e ∈ r.events, e.isColdStart = false := by
  by_cases hb : b = 0
  · subst hb
    unfold NNOptimizer.step at h
    rw [if_pos rfl] at h
    injection h with h
    subst h
    intro e he
    cases he
  · obtain ⟨s1, ev1, hcold, _, _, _, hbr⟩ := step_spec env s b g z p r hb h
    have hev1 : ev1 = [] := by
      rcases hcold with ⟨_, _, rfl⟩ | ⟨hflag2, _⟩
      · rfl
      · rw [hflag] at hflag2; cases hflag2
    rcases hbr with ⟨_, _, _, hev⟩ | ⟨_, _, _, hev⟩
    · rw [hev, hev1]
      intro e he
      simp only [List.nil_append, List.mem_cons, List.not_mem_nil,
        or_false] at he
      rcases he with rfl | rfl | rfl <;> rfl
    · rw [hev, hev1]
      intro e he
      simp only [List.nil_append, List.mem_cons, List.not_mem_nil,
        or_false] at he
      rcases he with rfl | rfl | rfl | rfl | rfl | rfl | rfl <;> rfl

/-- C8: the first step call with nonzero batch size on a fresh instance
performs exactly one cold-start pass, on the first example of each provided
sequence, before the main stages; the pass does not affect the returned
losses, it sets the one-shot flag, and the flag is never reset, so no later
call on the same instance emits another cold-start pass. -/
theorem c8_cold_start (env : Env) (s : NNOptimizer) (b : ℕ) (g : List ℕ)
    (z : List ℚ) (p : List (List ℚ)) (r : StepResult)
    (hflag : s.master_grad_created = false) (hb : b ≠ 0)
    (h : NNOptimizer.step env s b g z p = some r) :
    (∃ g0 z0 p0, g.head? = some g0 ∧ z.head? = some z0 ∧
      p.head? = some p0 ∧
      (r.events = [Ev.coldStartEv g0 z0 p0, Ev.zeroGrads, Ev.backwardPass,
          Ev.overflowCheck] ∨
        r.events = [Ev.coldStartEv g0 z0 p0, Ev.zeroGrads, Ev.backwardPass,
          Ev.overflowCheck, Ev.upcastGrads, Ev.clipGrads, Ev.optimStep,
          Ev.downcast])) ∧
    r.value_loss =
      (env.lossFn (s.params.map Param.compute_tensor) b g z p).1 ∧
    r.policy_loss =
      (env.lossFn (s.params.map Param.compute_tensor) b g z p).2 ∧
    r.final.master_grad_created = true ∧
    (∀ (calls : List StepCall) (s₂ : NNOptimizer),
      stepMany env r.final calls = some s₂ →
      s₂.master_grad_created = true) ∧
    (∀ (b2 : ℕ) (g2 : List ℕ) (z2 : List ℚ) (p2 : List (List ℚ))
        (r2 : StepResult),
      NNOptimizer.step env r.final b2 g2 z2 p2 = some r2 →
      ∀ e ∈ r2.events, e.isColdStart = false) := by
  obtain ⟨s1, ev1, hcold, hv, hp2, _, hbr⟩ := step_spec env s b g z p r hb h
  rcases hcold with ⟨hflag2, _⟩ | ⟨_, g0, z0, p0, hg, hz, hp, hs1, hev1⟩
  · rw [hflag] at hflag2; cases hflag2
  · have hfl : r.final.master_grad_created = true := by
      rcases hbr with ⟨_, _, hfin, _⟩ | ⟨_, _, ⟨psU, hU, hfin⟩, _⟩ <;>
        rw [hfin, hs1]
    have hct : s1.params.map Param.compute_tensor =
        s.params.map Param.compute_tensor := by
      rw [hs1]
      exact coldStart_compute_tensor env g0 z0 p0 s.params
    have hevd : r.events = [Ev.coldStartEv g0 z0 p0, Ev.zeroGrads,
        Ev.backwardPass, Ev.overflowCheck] ∨
        r.events = [Ev.coldStartEv g0 z0 p0, Ev.zeroGrads, Ev.backwardPass,
          Ev.overflowCheck, Ev.upcastGrads, Ev.clipGrads, Ev.optimStep,
          Ev.downcast] := by
      rcases hbr with ⟨_, _, _, hev⟩ | ⟨_, _, _, hev⟩
      · left
        rw [hev, hev1]
        rfl
      · right
        rw [hev, hev1]
        rfl
    exact ⟨⟨g0, z0, p0, hg, hz, hp, hevd⟩,
      by rw [hv, hct],
      by rw [hp2, hct],
      hfl,
      fun calls s₂ hm => (stepMany_frame env calls r.final s₂ hm).2 hfl,
      fun b2 g2 z2 p2 r2 h2 =>
        step_no_coldstart env r.final b2 g2 z2 p2 r2 hfl h2⟩

/-- C4 (amended): the gradient upcast of the commit path processes every
trainable pair unconditionally: if some trainable pair has an undefined
compute (or master) gradient the upcast panics instead of skipping it, and
otherwise every trainable pair's master gradient buffer is overwritten (not
accumulated into) with the compute gradient multiplied by the scale inverse
and cast to master precision; undefined gradients are skipped only by the
overflow scan, not by the upcast. -/
theorem c4_upcast_amended (scaleInv : ℚ) (ps : List Param) :
    ((∃ q ∈ ps, q.trainable = true ∧
        (q.compute_gradient = none ∨ q.master_gradient = none)) →
      upcastGradientsIntoMaster scaleInv ps = none) ∧
    ((∀ q ∈ ps, q.trainable = true →
        q.compute_gradient ≠ none ∧ q.master_gradient ≠ none) →
      upcastGradientsIntoMaster scaleInv ps =
        some (ps.map fun q =>
          if q.trainable then
            { q with master_gradient :=
                q.compute_gradient.map fun gv => gv.scaleBy scaleInv }
          else q)) :=
  ⟨upcast_fault scaleInv ps, upcast_success scaleInv ps⟩

/-- Test configuration: learning rate 1/1000, clip norm 1, scale update
interval 2. -/
def cfgT : NNOptimizerConfig :=
  { lr := 1/1000, gradient_clip_norm := 1,
    gradient_scale_update_interval := 2 }

/-- Test configuration with scale update interval 1. -/
def cfgOne : NNOptimizerConfig :=
  { lr := 1/1000, gradient_clip_norm := 1,
    gradient_scale_update_interval := 1 }

/-- A fresh trainable parameter with no gradient buffers materialized. -/
def pFresh : Param :=
  { trainable := true, compute_tensor := .fin 1, compute_gradient := none,
    master_tensor := .fin 1, master_gradient := none }

/-- A warmed-up trainable parameter with both gradient buffers present. -/
def pWarm : Param :=
  { trainable := true, compute_tensor := .fin 1,
    compute_gradient := some (.fin 4),
    master_tensor := .fin 1, master_gradient := some (.fin 0) }

/-- Oracle environment whose backward pass produces a finite gradient. -/
def envFin : Env :=
  { lossFn := fun _ _ _ _ _ => (.fin 1, .fin 2)
    backward := fun _ _ _ => some (.fin 3)
    masterBackward := fun _ _ _ _ _ => .fin 5
    castDown := fun v => v
    clip := fun _ _ _ => .fin 7
    optStep := fun _ _ => .fin 9 }

/-- Oracle environment whose backward pass produces a NaN gradient. -/
def envNaN : Env := { envFin with backward := fun _ _ _ => some .nan }

/-- Oracle environment whose backward pass populates no gradient. -/
def envNoGrad : Env := { envFin with backward := fun _ _ _ => none }

/-- A warm state (cold-start flag already set) with one warm parameter. -/
def sWarm : NNOptimizer :=
  { config := cfgT, gradient_scale := 65536, step_count := 0,
    master_grad_created := true, params := [pWarm] }

/-- A warm state whose parameter's compute gradient stays undefined. -/
def sNoGrad : NNOptimizer :=
  { config := cfgT, gradient_scale := 65536, step_count := 0,
    master_grad_created := true,
    params := [{ pFresh with master_gradient := some (.fin 0) }] }

/-- One concrete step call. -/
def callT : StepCall :=
  { batch_size := 1, game_iter := [10], z_iter := [1],
    policy_iter := [[1]] }

/-- Result of one committed step from sWarm under envFin. -/
def rWarmFin : StepResult :=
  { final := { config := cfgT, gradient_scale := 65536, step_count := 1,
               master_grad_created := true,
               params := [{ trainable := true, compute_tensor := .fin 9,
                            compute_gradient := some (.fin 3),
                            master_tensor := .fin 9,
                            master_gradient := some (.fin 7) }] },
    total_loss := .fin 3, value_loss := .fin 1, policy_loss := .fin 2,
    skipped := false,
    events := [Ev.zeroGrads, Ev.backwardPass, Ev.overflowCheck,
               Ev.upcastGrads, Ev.clipGrads, Ev.optimStep, Ev.downcast] }

/-- Result of one overflow step from sWarm under envNaN. -/
def rWarmNaN : StepResult :=
  { final := { config := cfgT, gradient_scale := 32768, step_count := 0,
               master_grad_created := true,
               params := [{ pWarm with compute_gradient := some .nan }] },
    total_loss := .fin 3, value_loss := .fin 1, policy_loss := .fin 2,
    skipped := true,
    events := [Ev.zeroGrads, Ev.backwardPass, Ev.overflowCheck] }

/-- The parameter of rWarmFin after the committed step. -/
def pAfter : Param :=
  { trainable := true, compute_tensor := .fin 9,
    compute_gradient := some (.fin 3),
    master_tensor := .fin 9, master_gradient := some (.fin 7) }

/-- State after one committed step from a fresh instance under envFin with
interval 1: the scale has doubled and the counter is back at 0. -/
def sDoubled : NNOptimizer :=
  { config := cfgOne, gradient_scale := 131072, step_count := 0,
    master_grad_created := true, params := [pAfter] }

/-- C1 is false as stated on a first real step: with the default scale
65536 and a NaN compute gradient on the first real step, the scale halves
to 32768 (overflow detected, update skipped), yet the master gradient
buffers change from unmaterialized to written, because the same call's
one-time cold-start pass materializes them; so in this call a master
gradient buffer is written, contrary to the claim. -/
theorem c1_counterexample :
    (NNOptimizer.step envNaN (NNOptimizer.new cfgT [pFresh]) 1 [10] [1]
        [[1]]).map
      (fun r => (r.skipped, r.final.gradient_scale,
        r.final.params.map Param.master_gradient)) =
      some (true, 32768, [some (FVal.fin 5)]) ∧
    (NNOptimizer.new cfgT [pFresh]).params.map Param.master_gradient =
      [none] := by
  constructor
  · norm_num [NNOptimizer.step, NNOptimizer.new, cfgT, pFresh, envNaN,
      envFin, coldStart, idxMap, idxMapFrom, zeroComputeGradients,
      runBackward, overflowScan, stepGrads, FVal.add, FVal.scaleBy,
      FVal.isBad, Nat.shiftLeft_eq]
  · rfl

/-- C4 is false as stated: with one trainable pair whose compute gradient
is undefined, the overflow scan (which does skip undefined gradients)
detects nothing, the commit path runs, and the upcast loop panics on the
undefined gradient tensor (the call returns none) instead of skipping the
pair and leaving its master gradient buffer unchanged. -/
theorem c4_counterexample :
    upcastGradientsIntoMaster (1 / 65536) sNoGrad.params = none ∧
    NNOptimizer.step envNoGrad sNoGrad 1 [10] [1] [[1]] = none := by
  exact ⟨rfl, rfl⟩

/-- Result of the first step (with cold start) from a fresh instance under
envFin with interval 2. -/
def rFirst : StepResult :=
  { final := { config := cfgT, gradient_scale := 65536, step_count := 1,
               master_grad_created := true, params := [pAfter] },
    total_loss := .fin 3, value_loss := .fin 1, policy_loss := .fin 2,
    skipped := false,
    events := [Ev.coldStartEv 10 1 [1], Ev.zeroGrads, Ev.backwardPass,
               Ev.overflowCheck, Ev.upcastGrads, Ev.clipGrads, Ev.optimStep,
               Ev.downcast] }

/-- Result of the first step from a fresh instance under envFin with
interval 1: the scale doubles. -/
def rDoubled : StepResult :=
  { final := sDoubled,
    total_loss := .fin 3, value_loss := .fin 1, policy_loss := .fin 2,
    skipped := false,
    events := [Ev.coldStartEv 10 1 [1], Ev.zeroGrads, Ev.backwardPass,
               Ev.overflowCheck, Ev.upcastGrads, Ev.clipGrads, Ev.optimStep,
               Ev.downcast] }

theorem stepWarmFin_eq :
    NNOptimizer.step envFin sWarm 1 [10] [1] [[1]] = some rWarmFin := by
  norm_num [NNOptimizer.step, sWarm, pWarm, rWarmFin, pAfter, cfgT, envFin,
    zeroComputeGradients, runBackward, overflowScan, idxMap, idxMapFrom,
    FVal.add, FVal.scaleBy, FVal.isBad, upcastGradientsIntoMaster,
    upcastParam, clipGradNorm, optimizerStep, downcastWeightsIntoCompute]

theorem stepWarmNaN_eq :
    NNOptimizer.step envNaN sWarm 1 [10] [1] [[1]] = some rWarmNaN := by
  norm_num [NNOptimizer.step, sWarm, pWarm, rWarmNaN, cfgT, envNaN, envFin,
    zeroComputeGradients, runBackward, overflowScan, idxMap, idxMapFrom,
    FVal.add, FVal.scaleBy, FVal.isBad]

theorem stepFreshFin_eq :
    NNOptimizer.step envFin (NNOptimizer.new cfgT [pFresh]) 1 [10] [1]
      [[1]] = some rFirst := by
  norm_num [NNOptimizer.step, NNOptimizer.new, cfgT, pFresh, rFirst, pAfter,
    envFin, coldStart, zeroComputeGradients, runBackward, overflowScan,
    idxMap, idxMapFrom, FVal.add, FVal.scaleBy, FVal.isBad,
    upcastGradientsIntoMaster, upcastParam, clipGradNorm, optimizerStep,
    downcastWeightsIntoCompute, Nat.shiftLeft_eq]

theorem stepFreshOne_eq :
    NNOptimizer.step envFin (NNOptimizer.new cfgOne [pFresh]) 1 [10] [1]
      [[1]] = some rDoubled := by
  norm_num [NNOptimizer.step, NNOptimizer.new, cfgOne, pFresh, rDoubled,
    sDoubled, pAfter, envFin, coldStart, zeroComputeGradients, runBackward,
    overflowScan, idxMap, idxMapFrom, FVal.add, FVal.scaleBy, FVal.isBad,
    upcastGradientsIntoMaster, upcastParam, clipGradNorm, optimizerStep,
    downcastWeightsIntoCompute, Nat.shiftLeft_eq]

/-- Witness for the amended C1 theorem at a concrete overflow step on a
warm instance. -/
theorem c1_overflow_step_witness :
    NNOptimizer.step envNaN sWarm 1 [10] [1] [[1]] = some rWarmNaN ∧
    rWarmNaN.skipped = true ∧
    rWarmNaN.final.gradient_scale = sWarm.gradient_scale * (1/2) ∧
    rWarmNaN.final.step_count = 0 ∧
    rWarmNaN.final.params.map Param.master_tensor =
      sWarm.params.map Param.master_tensor ∧
    rWarmNaN.final.params.map Param.master_gradient =
      sWarm.params.map Param.master_gradient ∧
    rWarmNaN.final.gradient_scale = 32768 := by
  have hmain := c1_overflow_step envNaN sWarm 1 [10] [1] [[1]] rWarmNaN
    one_ne_zero stepWarmNaN_eq rfl
  exact ⟨stepWarmNaN_eq, rfl, hmain.1, hmain.2.1, hmain.2.2.1,
    hmain.2.2.2.1 rfl, hmain.2.2.2.2 rfl⟩

/-- Witness for C2 on a concrete committed step. -/
theorem c2_scale_power_of_two_witness :
    stepMany envFin sWarm [callT] = some rWarmFin.final ∧
    (∃ k : ℤ, rWarmFin.final.gradient_scale =
      sWarm.gradient_scale * 2 ^ k) := by
  have hrun : stepMany envFin sWarm [callT] = some rWarmFin.final := by
    simp only [stepMany, callT, stepWarmFin_eq]
  exact ⟨hrun,
    (c2_scale_power_of_two envFin).2 [callT] sWarm rWarmFin.final hrun⟩

/-- Witness for C3: with update interval 1, one committed step from a
fresh instance doubles the scale and resets the counter. -/
theorem c3_interval_doubling_witness :
    stepsCommitted envFin (NNOptimizer.new cfgOne [pFresh]) [callT] =
      some sDoubled ∧
    sDoubled.gradient_scale =
      (NNOptimizer.new cfgOne [pFresh]).gradient_scale * 2 ∧
    sDoubled.step_count = 0 := by
  have hrun : stepsCommitted envFin (NNOptimizer.new cfgOne [pFresh])
      [callT] = some sDoubled := by
    simp only [stepsCommitted, callT, stepFreshOne_eq]
    rfl
  have hmain := (c3_interval_doubling envFin).1
    (NNOptimizer.new cfgOne [pFresh]) [callT] sDoubled (by decide) rfl rfl
    hrun
  exact ⟨hrun, hmain.1, hmain.2⟩

/-- Witness for the amended C4 theorem: the upcast overwrites the defined
master gradient of a trainable pair, and faults on an undefined one. -/
theorem c4_upcast_amended_witness :
    upcastGradientsIntoMaster (1/2) [pWarm] =
      some [{ pWarm with master_gradient := some (.fin 2) }] ∧
    upcastGradientsIntoMaster (1/2)
      [{ pWarm with compute_gradient := none }] = none := by
  constructor
  · have hsucc : ∀ q ∈ [pWarm], q.trainable = true →
        q.compute_gradient ≠ none ∧ q.master_gradient ≠ none := by
      intro q hq ht
      rw [List.mem_singleton] at hq
      subst hq
      exact ⟨by simp [pWarm], by simp [pWarm]⟩
    rw [(c4_upcast_amended (1/2) [pWarm]).2 hsucc]
    norm_num [pWarm, FVal.scaleBy]
  · exact (c4_upcast_amended (1/2) [{ pWarm with compute_gradient := none }]).1
      ⟨{ pWarm with compute_gradient := none },
        List.mem_singleton.mpr rfl, rfl, Or.inl rfl⟩

/-- Witness for C5 at a concrete committed step. -/
theorem c5_downcast_invariant_witness :
    NNOptimizer.step envFin sWarm 1 [10] [1] [[1]] = some rWarmFin ∧
    pAfter ∈ rWarmFin.final.params ∧ pAfter.trainable = true ∧
    pAfter.compute_tensor = envFin.castDown pAfter.master_tensor :=
  ⟨stepWarmFin_eq, List.mem_singleton.mpr rfl, rfl,
    c5_downcast_invariant envFin sWarm 1 [10] [1] [[1]] rWarmFin
      stepWarmFin_eq rfl pAfter (List.mem_singleton.mpr rfl) rfl⟩

/-- Witness for C6 at a concrete step. -/
theorem c6_losses_witness :
    NNOptimizer.step envFin sWarm 1 [10] [1] [[1]] = some rWarmFin ∧
    rWarmFin.total_loss = rWarmFin.value_loss.add rWarmFin.policy_loss ∧
    rWarmFin.value_loss =
      (envFin.lossFn (sWarm.params.map Param.compute_tensor) 1 [10] [1]
        [[1]]).1 ∧
    rWarmFin.policy_loss =
      (envFin.lossFn (sWarm.params.map Param.compute_tensor) 1 [10] [1]
        [[1]]).2 :=
  have h := c6_losses envFin sWarm 1 [10] [1] [[1]] rWarmFin one_ne_zero
    stepWarmFin_eq
  ⟨stepWarmFin_eq, h.1, h.2.1, h.2.2⟩

/-- Witness for C7 at a concrete committed step. -/
theorem c7_stage_order_witness :
    NNOptimizer.step envFin sWarm 1 [10] [1] [[1]] = some rWarmFin ∧
    (∃ pre, (pre = ([] : List Ev) ∨
        ∃ g0 z0 p0, pre = [Ev.coldStartEv g0 z0 p0]) ∧
      rWarmFin.events =
        pre ++ [Ev.zeroGrads, Ev.backwardPass, Ev.overflowCheck] ++
        (if rWarmFin.skipped then []
         else [Ev.upcastGrads, Ev.clipGrads, Ev.optimStep, Ev.downcast])) ∧
    rWarmFin.skipped = overflowScan rWarmFin.final.params :=
  have h := c7_stage_order envFin sWarm 1 [10] [1] [[1]] rWarmFin
    one_ne_zero stepWarmFin_eq
  ⟨stepWarmFin_eq, h.1, h.2⟩

/-- Witness for C8 at a concrete first step on a fresh instance. -/
theorem c8_cold_start_witness :
    NNOptimizer.step envFin (NNOptimizer.new cfgT [pFresh]) 1 [10] [1]
      [[1]] = some rFirst ∧
    (∃ g0 z0 p0, ([10] : List ℕ).head? = some g0 ∧
      ([1] : List ℚ).head? = some z0 ∧
      ([[1]] : List (List ℚ)).head? = some p0 ∧
      (rFirst.events = [Ev.coldStartEv g0 z0 p0, Ev.zeroGrads,
          Ev.backwardPass, Ev.overflowCheck] ∨
        rFirst.events = [Ev.coldStartEv g0 z0 p0, Ev.zeroGrads,
          Ev.backwardPass, Ev.overflowCheck, Ev.upcastGrads, Ev.clipGrads,
          Ev.optimStep, Ev.downcast])) ∧
    rFirst.final.master_grad_created = true :=
  have h := c8_cold_start envFin (NNOptimizer.new cfgT [pFresh]) 1 [10] [1]
    [[1]] rFirst rfl one_ne_zero stepFreshFin_eq
  ⟨stepFreshFin_eq, h.1, h.2.2.2.1⟩

/-- Witness for C10 at a concrete call with empty input sequences. -/
theorem c10_empty_input_panic_witness :
    (NNOptimizer.new cfgT [pFresh]).master_grad_created = false ∧
    NNOptimizer.step envFin (NNOptimizer.new cfgT [pFresh]) 1 [] [] [] =
      none :=
  ⟨rfl, c10_empty_input_panic envFin (NNOptimizer.new cfgT [pFresh]) 1 []
    [] [] rfl one_ne_zero (Or.inl rfl)⟩
